import Mathlib

/-!
Shallow embedding of `src/server.py`, a Flask-SocketIO Tic-Tac-Toe server.

Python strings "X" and "O" become `Player`; the empty board cell "" becomes
`none : Option Player`; insertion-ordered python dicts become association
lists (`Dict`).  Each socket event handler becomes a pure function from the
registry (the module-level `games` dict), the requesting connection id
(`request.sid`) and the payload fields to the new registry together with the
list of messages it emits.  A python expression that can raise (the
`0 <= idx < 9` comparison on a non-int) is modelled with `Except`.
-/

set_option maxRecDepth 8000

inductive Player : Type
| X
| O
deriving DecidableEq

inductive Status : Type
| waiting
| playing
| done
deriving DecidableEq

/-- Value of the `winner` field: a symbol or the string "draw". -/
inductive Outcome : Type
| won (p : Player)
| draw
deriving DecidableEq

abbrev Cell := Option Player

abbrev Board := Fin 9 → Cell

/-- A payload field as delivered by `data.get(...)`: an int, a string, or
`None` (field absent or null). -/
inductive PyVal : Type
| vnone
| vint (n : Int)
| vstr (s : String)
deriving DecidableEq

/-- Insertion-ordered python dict with string keys. -/
abbrev Dict (α : Type) := List (String × α)

/-- `d.get(k)` / `d[k]`. -/
def dget {α : Type} : Dict α → String → Option α
| [], _ => none
| (k', v) :: rest, k => if k' = k then some v else dget rest k

/-- `d[k] = v`: update in place if the key is present (keeping its position),
else append at the end — python dict insertion-order semantics. -/
def dset {α : Type} : Dict α → String → α → Dict α
| [], k, v => [(k, v)]
| (k', v') :: rest, k, v =>
  if k' = k then (k, v) :: rest else (k', v') :: dset rest k v

/-- `del d[k]`. -/
def ddel {α : Type} : Dict α → String → Dict α
| [], _ => []
| (k', v') :: rest, k => if k' = k then rest else (k', v') :: ddel rest k

/-- One game, exactly the dict stored in `games[room_id]` (server.py line 18). -/
structure GameState : Type where
  board : Board
  turn : Player
  players : Dict Player
  status : Status
  winner : Option Outcome

/-- The module-level `games` dict. -/
abbrev Registry := Dict GameState

/-- Messages emitted by the handlers via `emit(...)`. -/
inductive Emit : Type
| errorTo (sid : String) (msg : String)
| updateState (room : String) (st : GameState)
| gameCreated (sid : String) (room : String) (sym : Player) (st : GameState)
| playerJoined (room : String) (sym : Player) (st : GameState)

/-- `new_game_state()`, server.py lines 31-32. -/
def new_game_state : GameState :=
  { board := fun _ => none
    turn := Player.X
    players := []
    status := Status.waiting
    winner := none }

/-- The 8 winning triples, server.py lines 167-171: rows, columns, diagonals. -/
def wins : List (Fin 9 × Fin 9 × Fin 9) :=
  [(0, 1, 2), (3, 4, 5), (6, 7, 8),
   (0, 3, 6), (1, 4, 7), (2, 5, 8),
   (0, 4, 8), (2, 4, 6)]

/-- The loop of `check_winner`, server.py lines 172-175: return `b[a]` for the
first triple whose first cell is truthy (non-empty) and whose three cells are
equal, else fall through to `None`. -/
def check_winner_go (b : Board) : List (Fin 9 × Fin 9 × Fin 9) → Option Player
| [] => none
| t :: rest =>
  if (b t.1).isSome ∧ b t.1 = b t.2.1 ∧ b t.2.1 = b t.2.2 then b t.1
  else check_winner_go b rest

/-- `check_winner(b)`, server.py lines 166-175. -/
def check_winner (b : Board) : Option Player :=
  check_winner_go b wins

/-- `"O" if game["turn"] == "X" else "X"`, server.py line 111. -/
def other (p : Player) : Player :=
  if p = Player.X then Player.O else Player.X

/-- `all(cell != "" for cell in game["board"])`, server.py line 107. -/
def board_full (b : Board) : Bool :=
  (List.finRange 9).all fun i => (b i).isSome

/-- `on_create_game`, server.py lines 35-45.  The fresh uuid room id is passed
in as `rid`; the handler stores a new game state, puts the creator into
`players` with symbol "X", and answers `game_created` to the creator only. -/
def on_create_game (games : Registry) (sid : String) (rid : String) :
    Registry × List Emit :=
  let g0 := new_game_state
  let g1 := { g0 with players := dset g0.players sid Player.X }
  let g2 := { g1 with status := Status.waiting }
  (dset games rid g2, [Emit.gameCreated sid rid Player.X g2])

/-- `on_join_game`, server.py lines 47-64.  `data.get("room")` is `room`
(`none` when the field is missing, in which case the `room_id not in games`
test fails exactly as `None` is never a key). -/
def on_join_game (games : Registry) (sid : String) (room : Option String) :
    Registry × List Emit :=
  match room with
  | none => (games, [Emit.errorTo sid ("Room not found.")])
  | some rid =>
    match dget games rid with
    | none => (games, [Emit.errorTo sid ("Room not found.")])
    | some game =>
      if 2 ≤ game.players.length then
        (games, [Emit.errorTo sid ("Room already full.")])
      else
        let g := { game with players := dset game.players sid Player.O
                             status := Status.playing }
        (dset games rid g, [Emit.playerJoined rid Player.O g])

/-- The mutation block of `on_make_move`, server.py lines 100-111: set the
cell, then either record a winner, record a draw on a full board, or flip the
turn. -/
def apply_move_state (game : GameState) (i : Fin 9) (symbol : Player) :
    GameState :=
  let b2 := Function.update game.board i (some symbol)
  match check_winner b2 with
  | some p =>
    { game with board := b2
                status := Status.done
                winner := some (Outcome.won p) }
  | none =>
    if board_full b2 then
      { game with board := b2
                  status := Status.done
                  winner := some Outcome.draw }
    else
      { game with board := b2, turn := other game.turn }

/-- `on_make_move`, server.py lines 66-113.  The guards run in source order:
room lookup, `status != "playing"`, membership, turn, then
`not (0 <= idx < 9) or game["board"][idx] != ""`.  When `idx` is not an int
the comparison `0 <= idx` raises `TypeError`, modelled as `Except.error`;
every emit before that point has already returned. -/
def on_make_move (games : Registry) (sid : String) (room : Option String)
    (idx : PyVal) : Except String (Registry × List Emit) :=
  match room with
  | none => Except.ok (games, [Emit.errorTo sid ("Room not found.")])
  | some rid =>
    match dget games rid with
    | none => Except.ok (games, [Emit.errorTo sid ("Room not found.")])
    | some game =>
      if game.status ≠ Status.playing then
        Except.ok (games, [Emit.errorTo sid ("Game not active.")])
      else
        match dget game.players sid with
        | none =>
          Except.ok (games, [Emit.errorTo sid ("You are not part of this game.")])
        | some symbol =>
          if game.turn ≠ symbol then
            Except.ok (games, [Emit.errorTo sid ("Not your turn.")])
          else
            match idx with
            | PyVal.vint n =>
              if h : 0 ≤ n ∧ n < 9 then
                let i : Fin 9 := ⟨n.toNat, by omega⟩
                if (game.board i) ≠ none then
                  Except.ok (games, [Emit.errorTo sid ("Invalid move.")])
                else
                  let g2 := apply_move_state game i symbol
                  Except.ok (dset games rid g2, [Emit.updateState rid g2])
              else Except.ok (games, [Emit.errorTo sid ("Invalid move.")])
            | _ => Except.error ("TypeError")

/-- The reassignment loop of `on_restart`, server.py lines 129-130:
`for i, s in enumerate(sids): game["players"][s] = "X" if i == 0 else "O"`. -/
def assign_symbols (sids : List String) : Dict Player :=
  sids.enum.foldl (fun d p => dset d p.2 (if p.1 = 0 then Player.X else Player.O)) []

/-- `on_restart`, server.py lines 115-132.  `game.update(new_game_state())`
(line 121) overwrites every field, `players` included, because the fresh dict
carries all five keys; `sids = list(game["players"].keys())` (line 127) is
read only afterwards, so it is always the empty list. -/
def on_restart (games : Registry) (room : Option String) :
    Registry × List Emit :=
  match room with
  | none => (games, [])
  | some rid =>
    match dget games rid with
    | none => (games, [])
    | some _game =>
      let g1 := new_game_state
      let sids := g1.players.map Prod.fst
      let g2 := { g1 with players := assign_symbols sids }
      let g3 := { g2 with
                  status := if sids.length = 2 then Status.playing
                            else Status.waiting }
      (dset games rid g3, [Emit.updateState rid g3])

/-- `on_leave`, server.py lines 134-148.  A missing or unknown room id is a
silent no-op (there is no else branch on `if room_id in games`). -/
def on_leave (games : Registry) (sid : String) (room : Option String) :
    Registry × List Emit :=
  match room with
  | none => (games, [])
  | some rid =>
    match dget games rid with
    | none => (games, [])
    | some game =>
      let g1 := if (dget game.players sid).isSome then
                  { game with players := ddel game.players sid }
                else game
      if g1.players.length = 0 then (ddel games rid, [])
      else
        let g2 := { g1 with status := Status.waiting }
        (dset games rid g2, [Emit.updateState rid g2])

/-- Per-room registry effect of `on_disconnect`, server.py lines 155-162:
rooms that do not contain `sid` are untouched; rooms emptied by the removal
are deleted (via `to_delete`); the rest keep the shrunk `players` and get
`status = "waiting"`. -/
def droom (sid : String) (g : GameState) : Option GameState :=
  match dget g.players sid with
  | none => some g
  | some _ =>
    let g1 := { g with players := ddel g.players sid }
    if g1.players.length = 0 then none
    else some { g1 with status := Status.waiting }

/-- Per-room emit of `on_disconnect`: the `update_state` on line 158 fires
right after `del game["players"][sid]` and BEFORE the `status = "waiting"`
assignment on line 162, so the broadcast snapshot carries the old status. -/
def demit (sid : String) (e : String × GameState) : List Emit :=
  match dget e.2.players sid with
  | none => []
  | some _ =>
    [Emit.updateState e.1 { e.2 with players := ddel e.2.players sid }]

/-- `on_disconnect`, server.py lines 150-164: iterate over a snapshot of
`games.items()`, shrink every room containing `sid`, delete the emptied ones
after the loop. -/
def on_disconnect (games : Registry) (sid : String) : Registry × List Emit :=
  (games.filterMap fun e => (droom sid e.2).map fun g' => (e.1, g'),
   games.foldr (fun e acc => demit sid e ++ acc) [])

/-- An inbound socket event together with its payload fields. -/
inductive Event : Type
| create (sid : String) (rid : String)
| join (sid : String) (room : Option String)
| move (sid : String) (room : Option String) (idx : PyVal)
| restart (room : Option String)
| leave (sid : String) (room : Option String)
| disc (sid : String)

/-- Registry effect of one `make_move` event; a raised `TypeError` aborts the
handler before any mutation, leaving the registry as it was. -/
def move_step (games : Registry) (m : String × Option String × PyVal) :
    Registry :=
  match on_make_move games m.1 m.2.1 m.2.2 with
  | Except.ok p => p.1
  | Except.error _ => games

/-- Registry effect of one inbound event. -/
def stepE (games : Registry) : Event → Registry
| Event.create sid rid => (on_create_game games sid rid).1
| Event.join sid room => (on_join_game games sid room).1
| Event.move sid room idx => move_step games (sid, room, idx)
| Event.restart room => (on_restart games room).1
| Event.leave sid room => (on_leave games sid room).1
| Event.disc sid => (on_disconnect games sid).1

/-- The registry reached from the empty initial `games = {}` by a sequence of
inbound events. -/
def run_events (evs : List Event) : Registry :=
  evs.foldl stepE []

/-! ### Association-list lemmas -/

theorem dget_dset {α : Type} (d : Dict α) (k k' : String) (v : α) :
    dget (dset d k v) k' = if k = k' then some v else dget d k' := by
  induction d with
  | nil => by_cases h : k = k' <;> simp [dset, dget, h]
  | cons hd tl ih =>
    obtain ⟨k0, v0⟩ := hd
    by_cases h0 : k0 = k
    · subst h0
      by_cases h' : k0 = k' <;> simp [dset, dget, h']
    · by_cases h' : k0 = k'
      · subst h'
        have hk : ¬ k = k0 := fun h => h0 h.symm
        simp [dset, dget, h0, hk]
      · simp [dset, dget, h0, h', ih]

theorem dget_mem {α : Type} {d : Dict α} {k : String} {v : α}
    (h : dget d k = some v) : (k, v) ∈ d := by
  induction d with
  | nil => simp [dget] at h
  | cons hd tl ih =>
    obtain ⟨k0, v0⟩ := hd
    by_cases h0 : k0 = k
    · subst h0
      simp [dget] at h
      subst h
      exact List.mem_cons_self _ _
    · simp [dget, h0] at h
      exact List.mem_cons_of_mem _ (ih h)

theorem mem_dset {α : Type} {d : Dict α} {k : String} {v : α}
    {p : String × α} (h : p ∈ dset d k v) : p = (k, v) ∨ p ∈ d := by
  induction d with
  | nil => simpa [dset] using h
  | cons hd tl ih =>
    obtain ⟨k0, v0⟩ := hd
    by_cases h0 : k0 = k
    · simp only [dset, if_pos h0] at h
      rcases List.mem_cons.mp h with h | h
      · exact Or.inl h
      · exact Or.inr (List.mem_cons_of_mem _ h)
    · simp only [dset, if_neg h0] at h
      rcases List.mem_cons.mp h with h | h
      · exact Or.inr (by simp [h])
      · rcases ih h with h | h
        · exact Or.inl h
        · exact Or.inr (List.mem_cons_of_mem _ h)

theorem length_dset_le {α : Type} (d : Dict α) (k : String) (v : α) :
    (dset d k v).length ≤ d.length + 1 := by
  induction d with
  | nil => simp [dset]
  | cons hd tl ih =>
    obtain ⟨k0, v0⟩ := hd
    by_cases h0 : k0 = k <;> simp [dset, h0] <;> omega

theorem one_le_length_dset {α : Type} (d : Dict α) (k : String) (v : α) :
    1 ≤ (dset d k v).length := by
  induction d with
  | nil => simp [dset]
  | cons hd tl ih =>
    obtain ⟨k0, v0⟩ := hd
    by_cases h0 : k0 = k <;> simp [dset, h0]

theorem mem_ddel {α : Type} {d : Dict α} {k : String} {p : String × α}
    (h : p ∈ ddel d k) : p ∈ d := by
  induction d with
  | nil => simpa [ddel] using h
  | cons hd tl ih =>
    obtain ⟨k0, v0⟩ := hd
    by_cases h0 : k0 = k
    · simp only [ddel, if_pos h0] at h
      exact List.mem_cons_of_mem _ h
    · simp only [ddel, if_neg h0] at h
      rcases List.mem_cons.mp h with h | h
      · simp [h]
      · exact List.mem_cons_of_mem _ (ih h)

/-! ### Structure of `on_make_move` outcomes -/

theorem apply_move_state_board (game : GameState) (i : Fin 9) (symbol : Player) :
    (apply_move_state game i symbol).board
      = Function.update game.board i (some symbol) := by
  simp only [apply_move_state]
  cases hw : check_winner (Function.update game.board i (some symbol)) with
  | none =>
    by_cases hf : board_full (Function.update game.board i (some symbol)) <;>
      simp [hw, hf]
  | some p => simp [hw]

theorem apply_move_state_players (game : GameState) (i : Fin 9) (symbol : Player) :
    (apply_move_state game i symbol).players = game.players := by
  simp only [apply_move_state]
  cases hw : check_winner (Function.update game.board i (some symbol)) with
  | none =>
    by_cases hf : board_full (Function.update game.board i (some symbol)) <;>
      simp [hw, hf]
  | some p => simp [hw]

/-- Every call to `on_make_move` either answers a single `error` message to
the requester leaving the registry untouched, raises `TypeError`, or performs
a successful move: the addressed room exists, is playing, the requester holds
the turn symbol, the target cell is empty, and the updated room
(`apply_move_state`) is stored under the same id and broadcast. -/
theorem make_move_cases (games : Registry) (sid : String) (room : Option String)
    (idx : PyVal) :
    (∃ m, on_make_move games sid room idx = Except.ok (games, [Emit.errorTo sid m]))
    ∨ on_make_move games sid room idx = Except.error ("TypeError")
    ∨ (∃ rid game symbol i,
        room = some rid ∧ dget games rid = some game ∧
        game.status = Status.playing ∧
        dget game.players sid = some symbol ∧ game.turn = symbol ∧
        game.board i = none ∧
        on_make_move games sid room idx
          = Except.ok (dset games rid (apply_move_state game i symbol),
                       [Emit.updateState rid (apply_move_state game i symbol)])) := by
  match room with
  | none => exact Or.inl ⟨_, rfl⟩
  | some rid =>
    match hg : dget games rid with
    | none =>
      refine Or.inl ⟨("Room not found."), ?_⟩
      simp [on_make_move, hg]
    | some game =>
      by_cases hst : game.status = Status.playing
      · match hp : dget game.players sid with
        | none =>
          refine Or.inl ⟨("You are not part of this game."), ?_⟩
          simp [on_make_move, hg, hst, hp]
        | some symbol =>
          by_cases hturn : game.turn = symbol
          · match idx with
            | PyVal.vnone =>
              refine Or.inr (Or.inl ?_)
              simp [on_make_move, hg, hst, hp, hturn]
            | PyVal.vstr s =>
              refine Or.inr (Or.inl ?_)
              simp [on_make_move, hg, hst, hp, hturn]
            | PyVal.vint n =>
              by_cases hr : 0 ≤ n ∧ n < 9
              · have hn : n.toNat < 9 := by omega
                by_cases hc : game.board ⟨n.toNat, hn⟩ = none
                · refine Or.inr (Or.inr ?_)
                  refine ⟨rid, game, symbol, ⟨n.toNat, hn⟩, rfl, hg, hst, hp, hturn, hc, ?_⟩
                  simp [on_make_move, hg, hst, hp, hturn, hr, hc]
                · refine Or.inl ⟨("Invalid move."), ?_⟩
                  simp [on_make_move, hg, hst, hp, hturn, hr, hc]
              · refine Or.inl ⟨("Invalid move."), ?_⟩
                simp [on_make_move, hg, hst, hp, hturn, hr]
          · refine Or.inl ⟨("Not your turn."), ?_⟩
            simp [on_make_move, hg, hst, hp, hturn]
      · refine Or.inl ⟨("Game not active."), ?_⟩
        simp [on_make_move, hg, hst]

/-! ### The playing-room invariant -/

/-- Per-room invariant: a room in status `playing` holds 1 or 2 players. -/
def RegInv (games : Registry) : Prop :=
  ∀ rid g, (rid, g) ∈ games → g.status = Status.playing →
    1 ≤ g.players.length ∧ g.players.length ≤ 2

theorem inv_create (games : Registry) (sid rid : String) (h : RegInv games) :
    RegInv (on_create_game games sid rid).1 := by
  intro r g hmem hst
  simp only [on_create_game] at hmem
  rcases mem_dset hmem with heq | hmem'
  · cases heq
    simp [new_game_state] at hst
  · exact h r g hmem' hst

theorem inv_join (games : Registry) (sid : String) (room : Option String)
    (h : RegInv games) : RegInv (on_join_game games sid room).1 := by
  intro r g hmem hst
  match room with
  | none => exact h r g hmem hst
  | some rid =>
    cases hg : dget games rid with
    | none =>
      simp only [on_join_game, hg] at hmem
      exact h r g hmem hst
    | some game =>
      by_cases hfull : 2 ≤ game.players.length
      · simp only [on_join_game, hg, if_pos hfull] at hmem
        exact h r g hmem hst
      · simp only [on_join_game, hg, if_neg hfull] at hmem
        rcases mem_dset hmem with heq | hmem'
        · cases heq
          refine ⟨one_le_length_dset game.players sid Player.O, ?_⟩
          show (dset game.players sid Player.O).length ≤ 2
          have := length_dset_le game.players sid Player.O
          omega
        · exact h r g hmem' hst

theorem inv_move (games : Registry) (sid : String) (room : Option String)
    (idx : PyVal) (h : RegInv games) :
    RegInv (move_step games (sid, room, idx)) := by
  rcases make_move_cases games sid room idx with ⟨mm, hok⟩ | herr |
    ⟨rid0, game, symbol, i, hroom, hg, hst0, hp, hturn, hc, hok⟩
  · intro r g hmem hst
    simp only [move_step, hok] at hmem
    exact h r g hmem hst
  · intro r g hmem hst
    simp only [move_step, herr] at hmem
    exact h r g hmem hst
  · intro r g hmem hst
    simp only [move_step, hok] at hmem
    rcases mem_dset hmem with heq | hmem'
    · cases heq
      rw [apply_move_state_players]
      exact h rid0 game (dget_mem hg) hst0
    · exact h r g hmem' hst

theorem inv_restart (games : Registry) (room : Option String) (h : RegInv games) :
    RegInv (on_restart games room).1 := by
  intro r g hmem hst
  match room with
  | none => exact h r g hmem hst
  | some rid =>
    cases hg : dget games rid with
    | none =>
      simp only [on_restart, hg] at hmem
      exact h r g hmem hst
    | some game =>
      simp only [on_restart, hg] at hmem
      rcases mem_dset hmem with heq | hmem'
      · cases heq
        simp [new_game_state, assign_symbols] at hst
      · exact h r g hmem' hst

theorem inv_leave (games : Registry) (sid : String) (room : Option String)
    (h : RegInv games) : RegInv (on_leave games sid room).1 := by
  intro r g hmem hst
  match room with
  | none => exact h r g hmem hst
  | some rid =>
    cases hg : dget games rid with
    | none =>
      simp only [on_leave, hg] at hmem
      exact h r g hmem hst
    | some game =>
      by_cases hz : (if (dget game.players sid).isSome then
          { game with players := ddel game.players sid } else game).players.length = 0
      · simp only [on_leave, hg, if_pos hz] at hmem
        exact h r g (mem_ddel hmem) hst
      · simp only [on_leave, hg, if_neg hz] at hmem
        rcases mem_dset hmem with heq | hmem'
        · cases heq
          simp at hst
        · exact h r g hmem' hst

theorem inv_disc (games : Registry) (sid : String) (h : RegInv games) :
    RegInv (on_disconnect games sid).1 := by
  intro r g hmem hst
  simp only [on_disconnect] at hmem
  obtain ⟨e0, hmem0, hf⟩ := List.mem_filterMap.mp hmem
  rw [Option.map_eq_some'] at hf
  obtain ⟨g', hdr, heq⟩ := hf
  cases heq
  simp only [droom] at hdr
  cases hp : dget e0.2.players sid with
  | none =>
    rw [hp] at hdr
    cases hdr
    exact h e0.1 e0.2 hmem0 hst
  | some sym =>
    rw [hp] at hdr
    by_cases hz : ({ e0.2 with players := ddel e0.2.players sid }).players.length = 0
    · rw [if_pos hz] at hdr
      cases hdr
    · rw [if_neg hz] at hdr
      cases hdr
      simp at hst

theorem inv_step (games : Registry) (e : Event) (h : RegInv games) :
    RegInv (stepE games e) := by
  cases e with
  | create sid rid => exact inv_create games sid rid h
  | join sid room => exact inv_join games sid room h
  | move sid room idx => exact inv_move games sid room idx h
  | restart room => exact inv_restart games room h
  | leave sid room => exact inv_leave games sid room h
  | disc sid => exact inv_disc games sid h

theorem inv_run_events (evs : List Event) : RegInv (run_events evs) := by
  have main : ∀ evs games, RegInv games → RegInv (List.foldl stepE games evs) := by
    intro evs
    induction evs with
    | nil => exact fun games h => h
    | cons e rest ih =>
      intro games h
      exact ih (stepE games e) (inv_step games e h)
  have hnil : RegInv ([] : Registry) := by
    intro r g hmem hst
    simp at hmem
  exact main evs [] hnil

/-! ### Board monotonicity of moves -/

theorem move_step_mono (games : Registry) (m : String × Option String × PyVal)
    (rid : String) (g : GameState) (h : dget games rid = some g) :
    ∃ g', dget (move_step games m) rid = some g'
      ∧ ∀ i, g.board i ≠ none → g'.board i = g.board i := by
  obtain ⟨sid, room, idx⟩ := m
  rcases make_move_cases games sid room idx with ⟨mm, hok⟩ | herr |
    ⟨rid0, game, symbol, i0, hroom, hg, hst0, hp, hturn, hc, hok⟩
  · refine ⟨g, ?_, fun i hi => rfl⟩
    simp only [move_step, hok]
    exact h
  · refine ⟨g, ?_, fun i hi => rfl⟩
    simp only [move_step, herr]
    exact h
  · by_cases hr : rid0 = rid
    · subst hr
      rw [h] at hg
      injection hg with hg
      subst hg
      refine ⟨apply_move_state g i0 symbol, ?_, ?_⟩
      · simp only [move_step, hok, dget_dset]
        simp
      · intro j hj
        rw [apply_move_state_board]
        have hne : j ≠ i0 := fun hji => hj (hji ▸ hc)
        rw [Function.update_noteq hne]
    · refine ⟨g, ?_, fun j hj => rfl⟩
      simp only [move_step, hok, dget_dset, if_neg hr]
      exact h

theorem run_moves_mono (ms : List (String × Option String × PyVal))
    (games : Registry) (rid : String) (g g' : GameState)
    (h : dget games rid = some g)
    (h' : dget (List.foldl move_step games ms) rid = some g') :
    ∀ i, g.board i ≠ none → g'.board i = g.board i := by
  induction ms generalizing games g with
  | nil =>
    simp only [List.foldl] at h'
    rw [h] at h'
    injection h' with h'
    subst h'
    exact fun i hi => rfl
  | cons m rest ih =>
    simp only [List.foldl] at h'
    obtain ⟨g1, hg1, hmono⟩ := move_step_mono games m rid g h
    intro i hi
    have hi1 : g1.board i ≠ none := by
      rw [hmono i hi]
      exact hi
    have h2 := ih (move_step games m) g1 hg1 h' i hi1
    rw [h2, hmono i hi]

/-! ### `check_winner` against the spec description of `evaluateWinner` -/

/-- Spec wording: triple `t` is a winning line in `b` when its three cells
are non-empty and equal. -/
def uniform_triple (b : Board) (t : Fin 9 × Fin 9 × Fin 9) : Prop :=
  ∃ s, b t.1 = some s ∧ b t.2.1 = some s ∧ b t.2.2 = some s

theorem uniform_triple_iff (b : Board) (t : Fin 9 × Fin 9 × Fin 9) :
    uniform_triple b t
      ↔ ((b t.1).isSome ∧ b t.1 = b t.2.1 ∧ b t.2.1 = b t.2.2) := by
  constructor
  · rintro ⟨s, h1, h2, h3⟩
    refine ⟨by simp [h1], by rw [h1, h2], by rw [h2, h3]⟩
  · rintro ⟨hs, h1, h2⟩
    obtain ⟨s, hsome⟩ := Option.isSome_iff_exists.mp hs
    exact ⟨s, hsome, by rw [← h1, hsome], by rw [← h2, ← h1, hsome]⟩

instance uniform_triple_dec (b : Board) (t : Fin 9 × Fin 9 × Fin 9) :
    Decidable (uniform_triple b t) :=
  decidable_of_iff _ (uniform_triple_iff b t).symm

/-- `evaluateWinner` as the spec words it: the common symbol (= first cell)
of the first triple, in the fixed rows-columns-diagonals order, whose three
cells are non-empty and equal; none when no triple qualifies. -/
def evaluateWinner_spec (b : Board) : Option Player :=
  (wins.find? fun t => decide (uniform_triple b t)).bind fun t => b t.1

theorem check_winner_go_eq_find (b : Board) (l : List (Fin 9 × Fin 9 × Fin 9)) :
    check_winner_go b l
      = (l.find? fun t => decide (uniform_triple b t)).bind fun t => b t.1 := by
  induction l with
  | nil => rfl
  | cons t rest ih =>
    by_cases hu : uniform_triple b t
    · have hcond := (uniform_triple_iff b t).mp hu
      simp only [check_winner_go, if_pos hcond, List.find?]
      simp [hu]
    · have hcond : ¬ ((b t.1).isSome ∧ b t.1 = b t.2.1 ∧ b t.2.1 = b t.2.2) :=
        fun hc => hu ((uniform_triple_iff b t).mpr hc)
      simp only [check_winner_go, if_neg hcond, List.find?]
      simp [hu, ih]

theorem check_winner_eq_spec (b : Board) :
    check_winner b = evaluateWinner_spec b :=
  check_winner_go_eq_find b wins

theorem check_winner_isSome_iff (b : Board) :
    (check_winner b).isSome ↔ ∃ t ∈ wins, uniform_triple b t := by
  rw [check_winner_eq_spec]
  unfold evaluateWinner_spec
  cases hf : wins.find? (fun t => decide (uniform_triple b t)) with
  | none =>
    simp only [Option.none_bind]
    constructor
    · intro h
      simp at h
    · rintro ⟨t, ht, hu⟩
      have hnone := List.find?_eq_none.mp hf t ht
      simp [hu] at hnone
  | some t =>
    have hpt := List.find?_some hf
    have htmem : t ∈ wins := List.mem_of_find?_eq_some hf
    have hut : uniform_triple b t := of_decide_eq_true hpt
    simp only [Option.some_bind]
    constructor
    · intro _
      exact ⟨t, htmem, hut⟩
    · intro _
      obtain ⟨s, h1, _, _⟩ := hut
      simp [h1]

/-! ### Registry and emit shape of `on_disconnect` -/

theorem dget_filterMap_key {α β : Type} (f : α → Option β) (d : Dict α)
    (k : String) (v : α) (w : β) (hg : dget d k = some v) (hf : f v = some w) :
    dget (d.filterMap fun e => (f e.2).map fun x => (e.1, x)) k = some w := by
  induction d with
  | nil => simp [dget] at hg
  | cons e0 rest ih =>
    by_cases hk : e0.1 = k
    · have hv : e0.2 = v := by
        have : dget (e0 :: rest) k = some e0.2 := by
          obtain ⟨a, b⟩ := e0
          simp only [dget] at hk ⊢
          simp [hk]
        rw [hg] at this
        injection this with this
        exact this.symm
      obtain ⟨a, b⟩ := e0
      simp only at hk hv
      subst hk
      subst hv
      simp [List.filterMap_cons, hf, dget]
    · obtain ⟨a, b⟩ := e0
      simp only at hk
      have hg' : dget rest k = some v := by
        simp only [dget, if_neg hk] at hg
        exact hg
      cases hfa : f b with
      | none => simp only [List.filterMap_cons, hfa, Option.map_none']
                exact ih hg'
      | some w0 =>
        simp only [List.filterMap_cons, hfa, Option.map_some', dget, if_neg hk]
        exact ih hg'

theorem dget_on_disconnect (games : Registry) (sid rid : String)
    (g g' : GameState) (hg : dget games rid = some g)
    (hdr : droom sid g = some g') :
    dget (on_disconnect games sid).1 rid = some g' := by
  simp only [on_disconnect]
  exact dget_filterMap_key (droom sid) games rid g g' hg hdr

theorem demit_mem_on_disconnect (games : Registry) (sid : String)
    (e : String × GameState) (hmem : e ∈ games) (x : Emit)
    (hx : x ∈ demit sid e) : x ∈ (on_disconnect games sid).2 := by
  simp only [on_disconnect]
  induction games with
  | nil => simp at hmem
  | cons e0 rest ih =>
    simp only [List.foldr_cons]
    rcases List.mem_cons.mp hmem with heq | hmem'
    · subst heq
      exact List.mem_append.mpr (Or.inl hx)
    · exact List.mem_append.mpr (Or.inr (ih hmem'))

/-! ### Claim C1 -/

/-- Event trace reaching the C1 counterexample state: create, join, a full
game won by X, a disconnect of "B", then a `join_game` reissued by "A", who
already held a symbol in the room. -/
def c1_trace : List Event :=
  [Event.create ("A") ("r"), Event.join ("B") (some ("r")),
   Event.move ("A") (some ("r")) (PyVal.vint 0),
   Event.move ("B") (some ("r")) (PyVal.vint 3),
   Event.move ("A") (some ("r")) (PyVal.vint 1),
   Event.move ("B") (some ("r")) (PyVal.vint 4),
   Event.move ("A") (some ("r")) (PyVal.vint 2),
   Event.disc ("B"), Event.join ("A") (some ("r"))]

/-- The room state reached by `c1_trace`. -/
def c1_state : GameState :=
  match dget (run_events c1_trace) ("r") with
  | some g => g
  | none => new_game_state

/-- C1 is false on the code: after `c1_trace` the room "r" is reachable with
status "playing", yet its players mapping has 1 entry (the rejoin by "A"
overwrote its own entry with "O") and its winner is still set from the
finished game. -/
theorem claim1_counterexample :
    ¬ (∀ g, dget (run_events c1_trace) ("r") = some g →
        g.status = Status.playing → g.players.length = 2 ∧ g.winner = none) := by
  intro h
  have h2 := h c1_state (by rfl) (by decide)
  rcases h2 with ⟨hl, hw⟩
  have h1 : c1_state.players.length = 1 := by decide
  omega

/-- C1 (amended): in every reachable registry state, a room whose status is
"playing" has at least 1 and at most 2 entries in its players mapping; the
original "exactly 2 entries and winner unset" fails on reachable states (see
the counterexample). -/
theorem claim1_theorem (evs : List Event) (rid : String) (g : GameState)
    (h : dget (run_events evs) rid = some g)
    (hst : g.status = Status.playing) :
    1 ≤ g.players.length ∧ g.players.length ≤ 2 :=
  inv_run_events evs rid g (dget_mem h) hst

/-- Trace for the C1 witness: an ordinary create followed by a join. -/
def c1w_trace : List Event :=
  [Event.create ("A") ("r"), Event.join ("B") (some ("r"))]

/-- The room state reached by `c1w_trace`. -/
def c1w_state : GameState :=
  match dget (run_events c1w_trace) ("r") with
  | some g => g
  | none => new_game_state

/-- C1 witness: the amended invariant evaluated on the concrete playing room
reached by `c1w_trace`. -/
theorem claim1_witness :
    1 ≤ c1w_state.players.length ∧ c1w_state.players.length ≤ 2 :=
  claim1_theorem c1w_trace ("r") c1w_state (by rfl) (by rfl)

/-! ### Claim C2 -/

/-- Trace for C2: a playing room where it is the turn of "A". -/
def c2_trace : List Event :=
  [Event.create ("A") ("r"), Event.join ("B") (some ("r"))]

/-- C2: the code violates the claim.  A `make_move` whose `index` field is
missing (None) or not an integer, sent by the player whose turn it is in a
playing room, raises an uncaught TypeError at the `0 <= idx` comparison
(server.py line 96) instead of answering a typed error event. -/
theorem claim2_theorem :
    on_make_move (run_events c2_trace) ("A") (some ("r")) PyVal.vnone
      = Except.error ("TypeError")
    ∧ on_make_move (run_events c2_trace) ("A") (some ("r")) (PyVal.vstr ("x"))
      = Except.error ("TypeError") :=
  ⟨rfl, rfl⟩

/-! ### Claim C3 -/

/-- Trace for C3: a playing room with players "A" and "B". -/
def c3_trace : List Event :=
  [Event.create ("A") ("r"), Event.join ("B") (some ("r"))]

/-- Status carried by an `update_state` emit. -/
def emit_status : Emit → Option Status
| Emit.updateState _ st => some st.status
| _ => none

/-- C3 is false on the code: when "B" disconnects from the playing room, the
registry room does end up waiting, but the broadcast `update_state` carries
status "playing" — the emit on server.py line 158 precedes the
`status = "waiting"` write on line 162. -/
theorem claim3_counterexample :
    ((on_disconnect (run_events c3_trace) ("B")).2).map emit_status
      = [some Status.playing]
    ∧ (dget (on_disconnect (run_events c3_trace) ("B")).1 ("r")).map
        (fun g => g.status) = some Status.waiting
    ∧ Status.playing ≠ Status.waiting :=
  ⟨by decide, by decide, by decide⟩

/-- C3 (amended): a disconnect of a member with players remaining sets the
room's registry status to waiting, and broadcasts an `update_state` whose
players mapping already excludes the leaver but whose status is the
pre-transition one (the emit precedes the status write). -/
theorem claim3_theorem (games : Registry) (rid sid : String) (g : GameState)
    (hg : dget games rid = some g) (hmem : (dget g.players sid).isSome)
    (hrem : ({ g with players := ddel g.players sid }).players.length ≠ 0) :
    dget (on_disconnect games sid).1 rid
      = some { g with players := ddel g.players sid, status := Status.waiting }
    ∧ Emit.updateState rid { g with players := ddel g.players sid }
      ∈ (on_disconnect games sid).2 := by
  obtain ⟨sym, hsym⟩ := Option.isSome_iff_exists.mp hmem
  constructor
  · apply dget_on_disconnect games sid rid g _ hg
    simp only [droom, hsym, if_neg hrem]
  · apply demit_mem_on_disconnect games sid (rid, g) (dget_mem hg)
    simp only [demit, hsym]
    exact List.mem_singleton_self _

/-- The room state reached by `c3_trace`. -/
def c3w_state : GameState :=
  match dget (run_events c3_trace) ("r") with
  | some g => g
  | none => new_game_state

/-- C3 witness: the amended statement evaluated on the concrete playing room
of `c3_trace` when "B" disconnects. -/
theorem claim3_witness :
    dget (on_disconnect (run_events c3_trace) ("B")).1 ("r")
      = some { c3w_state with players := ddel c3w_state.players ("B")
                              status := Status.waiting }
    ∧ Emit.updateState ("r") { c3w_state with
        players := ddel c3w_state.players ("B") }
      ∈ (on_disconnect (run_events c3_trace) ("B")).2 :=
  claim3_theorem (run_events c3_trace) ("r") ("B") c3w_state
    (by rfl) (by decide) (by decide)

/-! ### Claim C4 -/

/-- Trace for the C4 counterexample: one waiting room created by "A". -/
def c4_trace : List Event := [Event.create ("A") ("r")]

/-- C4 is false on the code: a `make_move` on an existing waiting room by a
connection with no symbol in it answers "Game not active.", not the
NotInGame error — the status check precedes the membership check, so the
NotInGame report is not independent of the room's status. -/
theorem claim4_counterexample :
    on_make_move (run_events c4_trace) ("B") (some ("r")) (PyVal.vint 0)
      = Except.ok (run_events c4_trace,
          [Emit.errorTo ("B") ("Game not active.")])
    ∧ ("Game not active." : String) ≠ ("You are not part of this game.") :=
  ⟨rfl, by decide⟩

/-- C4 (amended): NotInGame is reported to a symbol-less connection only when
the room's status is "playing"; for any other status the GameNotActive check
fires first. -/
theorem claim4_theorem (games : Registry) (rid sid : String) (g : GameState)
    (idx : PyVal) (hg : dget games rid = some g)
    (hst : g.status = Status.playing) (hnp : dget g.players sid = none) :
    on_make_move games sid (some rid) idx
      = Except.ok (games,
          [Emit.errorTo sid ("You are not part of this game.")]) := by
  simp [on_make_move, hg, hst, hnp]

/-- Trace for the C4 witness: a playing room with players "A" and "B". -/
def c4w_trace : List Event :=
  [Event.create ("A") ("r"), Event.join ("B") (some ("r"))]

/-- The room state reached by `c4w_trace`. -/
def c4w_state : GameState :=
  match dget (run_events c4w_trace) ("r") with
  | some g => g
  | none => new_game_state

/-- C4 witness: a stranger "C" moving in the concrete playing room gets the
NotInGame error. -/
theorem claim4_witness :
    on_make_move (run_events c4w_trace) ("C") (some ("r")) (PyVal.vint 0)
      = Except.ok (run_events c4w_trace,
          [Emit.errorTo ("C") ("You are not part of this game.")]) :=
  claim4_theorem (run_events c4w_trace) ("r") ("C") c4w_state (PyVal.vint 0)
    (by rfl) (by rfl) (by rfl)

/-! ### Claim C5 -/

/-- Trace for C5: a full game in room "r" ending with winner "X". -/
def c5_trace : List Event :=
  [Event.create ("A") ("r"), Event.join ("B") (some ("r")),
   Event.move ("A") (some ("r")) (PyVal.vint 0),
   Event.move ("B") (some ("r")) (PyVal.vint 3),
   Event.move ("A") (some ("r")) (PyVal.vint 1),
   Event.move ("B") (some ("r")) (PyVal.vint 4),
   Event.move ("A") (some ("r")) (PyVal.vint 2)]

/-- `c5_trace` followed by a restart_game of room "r". -/
def c5_trace_r : List Event := c5_trace ++ [Event.restart (some ("r"))]

/-- C5: moves on the done room do fail with GameNotActive and change nothing,
but the second half of the claim is broken by a code bug: `restart_game`
wipes the players mapping (`game.update(new_game_state())` replaces
`players` before `sids` is read, contradicting the handler's own "keep
players mapping" comment), leaving the room waiting and empty, so a former
player's move still fails with GameNotActive after the restart — no move can
succeed again. -/
theorem claim5_theorem :
    (dget (run_events c5_trace) ("r")).map (fun g => g.status)
      = some Status.done
    ∧ on_make_move (run_events c5_trace) ("B") (some ("r")) (PyVal.vint 5)
      = Except.ok (run_events c5_trace,
          [Emit.errorTo ("B") ("Game not active.")])
    ∧ (dget (run_events c5_trace_r) ("r")).map (fun g => (g.players, g.status))
      = some ([], Status.waiting)
    ∧ on_make_move (run_events c5_trace_r) ("A") (some ("r")) (PyVal.vint 5)
      = Except.ok (run_events c5_trace_r,
          [Emit.errorTo ("A") ("Game not active.")]) :=
  ⟨by decide, rfl, by decide, rfl⟩

/-! ### Claim C6 -/

/-- C6: `check_winner` coincides with the spec description of
`evaluateWinner` on every board: it returns exactly the common symbol (the
first cell) of the first triple, in the fixed rows-columns-diagonals order,
whose three cells are non-empty and equal; it returns a symbol iff some
winning triple is uniform and non-empty; and it returns none on the empty
board. -/
theorem claim6_theorem :
    (∀ b : Board, check_winner b = evaluateWinner_spec b
      ∧ ((check_winner b).isSome ↔ ∃ t ∈ wins, uniform_triple b t))
    ∧ check_winner (fun _ => none) = none :=
  ⟨fun b => ⟨check_winner_eq_spec b, check_winner_isSome_iff b⟩, rfl⟩

/-- A board with X on the whole top row. -/
def c6w_board : Board :=
  fun i => if i = (0 : Fin 9) ∨ i = (1 : Fin 9) ∨ i = (2 : Fin 9) then
    some Player.X else none

/-- C6 witness: the equivalence evaluated on the concrete top-row board. -/
theorem claim6_witness :
    check_winner c6w_board = evaluateWinner_spec c6w_board :=
  (claim6_theorem.1 c6w_board).1

/-! ### Claim C7 -/

/-- C7: across any sequence of make_move events, an occupied cell of a room
never changes: board cells transition only empty→occupied, never
occupied→occupied with a different value and never occupied→empty.  (Restart
and create, which rebuild the board, start a new game and are excluded by the
claim's "within a single game".) -/
theorem claim7_theorem (ms : List (String × Option String × PyVal))
    (games : Registry) (rid : String) (g g' : GameState)
    (h : dget games rid = some g)
    (h' : dget (List.foldl move_step games ms) rid = some g')
    (i : Fin 9) (hi : g.board i ≠ none) : g'.board i = g.board i :=
  run_moves_mono ms games rid g g' h h' i hi

/-- Trace for the C7 witness: a playing room in which "A" has taken cell 4. -/
def c7w_trace : List Event :=
  [Event.create ("A") ("r"), Event.join ("B") (some ("r")),
   Event.move ("A") (some ("r")) (PyVal.vint 4)]

/-- Follow-up move list for the C7 witness. -/
def c7w_moves : List (String × Option String × PyVal) :=
  [(("B"), some ("r"), PyVal.vint 0)]

/-- The room state reached by `c7w_trace`. -/
def c7w_g : GameState :=
  match dget (run_events c7w_trace) ("r") with
  | some g => g
  | none => new_game_state

/-- The room state after additionally applying `c7w_moves`. -/
def c7w_g2 : GameState :=
  match dget (List.foldl move_step (run_events c7w_trace) c7w_moves) ("r") with
  | some g => g
  | none => new_game_state

/-- C7 witness: cell 4, occupied by "A", is unchanged by the later move of
"B" at cell 0. -/
theorem claim7_witness : c7w_g2.board 4 = c7w_g.board 4 :=
  claim7_theorem c7w_moves (run_events c7w_trace) ("r") c7w_g c7w_g2
    (by rfl) (by rfl) 4 (by decide)

/-! ### Claim C8 -/

/-- C8: a make_move that answers an error message to the requester leaves the
whole registry (hence the room's board, turn, players, status and winner)
unchanged, and that error is the only emit — in particular no `update_state`
broadcast to the room occurs. -/
theorem claim8_theorem (games : Registry) (sid : String) (room : Option String)
    (idx : PyVal) (g' : Registry) (es : List Emit) (m : String)
    (h : on_make_move games sid room idx = Except.ok (g', es))
    (he : Emit.errorTo sid m ∈ es) :
    g' = games ∧ es = [Emit.errorTo sid m] := by
  rcases make_move_cases games sid room idx with ⟨mm, hok⟩ | herr |
    ⟨rid0, game, symbol, i0, hroom, hg, hst0, hp, hturn, hc, hok⟩
  · rw [h] at hok
    injection hok with hok
    injection hok with h1 h2
    subst h1
    subst h2
    rcases List.mem_singleton.mp he with heq
    injection heq with hm1 hm2
    subst hm2
    exact ⟨rfl, rfl⟩
  · rw [h] at herr
    cases herr
  · rw [h] at hok
    injection hok with hok
    injection hok with h1 h2
    subst h2
    simp at he

/-- Trace for the C8 witness: one waiting room created by "A". -/
def c8w_trace : List Event := [Event.create ("A") ("r")]

/-- C8 witness: the failing move of the stranger "B" on the waiting room
leaves the registry unchanged and emits only the error. -/
theorem claim8_witness :
    run_events c8w_trace = run_events c8w_trace
    ∧ [Emit.errorTo ("B") ("Game not active.")]
      = [Emit.errorTo ("B") ("Game not active.")] :=
  claim8_theorem (run_events c8w_trace) ("B") (some ("r")) (PyVal.vint 0)
    (run_events c8w_trace) [Emit.errorTo ("B") ("Game not active.")]
    ("Game not active.") (by rfl) (List.mem_singleton_self _)

/-! ### Claim C9 -/

/-- C9: a leave_game naming an existing room sets its status to waiting and
broadcasts the updated state whenever players remain afterwards; membership
of the requester is not checked before the demotion, so this applies verbatim
to a connection holding no symbol in the room (for which the players mapping
is left as it was). -/
theorem claim9_theorem (games : Registry) (rid sid : String) (g : GameState)
    (hg : dget games rid = some g)
    (hrem : (if (dget g.players sid).isSome then
        { g with players := ddel g.players sid } else g).players.length ≠ 0) :
    on_leave games sid (some rid)
      = (dset games rid
            { (if (dget g.players sid).isSome then
                  { g with players := ddel g.players sid } else g) with
              status := Status.waiting },
         [Emit.updateState rid
            { (if (dget g.players sid).isSome then
                  { g with players := ddel g.players sid } else g) with
              status := Status.waiting }]) := by
  simp only [on_leave, hg, if_neg hrem]

/-- Trace for the C9 witness: a playing room with players "A" and "B". -/
def c9w_trace : List Event :=
  [Event.create ("A") ("r"), Event.join ("B") (some ("r"))]

/-- The room state reached by `c9w_trace`. -/
def c9w_state : GameState :=
  match dget (run_events c9w_trace) ("r") with
  | some g => g
  | none => new_game_state

/-- C9 witness: a leave_game by the symbol-less connection "C" demotes the
concrete playing room to waiting and broadcasts the new state. -/
theorem claim9_witness :
    on_leave (run_events c9w_trace) ("C") (some ("r"))
      = (dset (run_events c9w_trace) ("r")
            { (if (dget c9w_state.players ("C")).isSome then
                  { c9w_state with players := ddel c9w_state.players ("C") }
                else c9w_state) with
              status := Status.waiting },
         [Emit.updateState ("r")
            { (if (dget c9w_state.players ("C")).isSome then
                  { c9w_state with players := ddel c9w_state.players ("C") }
                else c9w_state) with
              status := Status.waiting }]) :=
  claim9_theorem (run_events c9w_trace) ("r") ("C") c9w_state
    (by rfl) (by decide)

/-! ### Claim C10 -/

/-- C10: `new_game_state` starts with turn "X", so after every create_game
and after every restart_game of an existing room the stored turn is "X"; and
in a state whose turn is "X" a successful move (one that broadcasts an
`update_state`) can only come from the connection holding symbol "X" — the
holder of the first symbol has the first move. -/
theorem claim10_theorem
    (games g2s g3s : Registry) (sid sid3 rid rid2 rid3 : String)
    (gB : GameState) (idx : PyVal) (res : Registry × List Emit)
    (st : GameState) (h2 : (dget g2s rid2).isSome)
    (h3 : dget g3s rid3 = some gB) (ht : gB.turn = Player.X)
    (hmv : on_make_move g3s sid3 (some rid3) idx = Except.ok res)
    (hup : Emit.updateState rid3 st ∈ res.2) :
    new_game_state.turn = Player.X
    ∧ (dget (on_create_game games sid rid).1 rid).map (fun g => g.turn)
      = some Player.X
    ∧ (dget (on_restart g2s (some rid2)).1 rid2).map (fun g => g.turn)
      = some Player.X
    ∧ dget gB.players sid3 = some Player.X := by
  refine ⟨rfl, ?_, ?_, ?_⟩
  · simp only [on_create_game]
    rw [dget_dset]
    simp [new_game_state]
  · obtain ⟨g0, hg0⟩ := Option.isSome_iff_exists.mp h2
    simp only [on_restart, hg0]
    rw [dget_dset]
    simp [new_game_state, assign_symbols]
  · rcases make_move_cases g3s sid3 (some rid3) idx with ⟨mm, hok⟩ | herr |
      ⟨rid0, game, symbol, i0, hroom, hg, hst0, hp, hturn, hc, hok⟩
    · rw [hmv] at hok
      injection hok with hok
      subst hok
      simp at hup
    · rw [hmv] at herr
      cases herr
    · injection hroom with hroom
      subst hroom
      rw [h3] at hg
      injection hg with hg
      subst hg
      rw [hp, ← hturn, ht]

/-- Trace for the C10 witness: a playing room with "A" holding "X" and the
turn on "A". -/
def c10w_trace : List Event :=
  [Event.create ("A") ("r"), Event.join ("B") (some ("r"))]

/-- The room state reached by `c10w_trace`. -/
def c10w_state : GameState :=
  match dget (run_events c10w_trace) ("r") with
  | some g => g
  | none => new_game_state

/-- Result of the successful first move of "A" at cell 0. -/
def c10w_res : Registry × List Emit :=
  match on_make_move (run_events c10w_trace) ("A") (some ("r"))
      (PyVal.vint 0) with
  | Except.ok p => p
  | Except.error _ => ([], [])

/-- The state broadcast by that successful move. -/
def c10w_st : GameState :=
  match c10w_res.2 with
  | [Emit.updateState _ s] => s
  | _ => new_game_state

/-- C10 witness: the statement evaluated on the concrete room, with "A"
making the successful first move. -/
theorem claim10_witness :
    new_game_state.turn = Player.X
    ∧ (dget (on_create_game (run_events c10w_trace) ("A") ("q")).1 ("q")).map
        (fun g => g.turn) = some Player.X
    ∧ (dget (on_restart (run_events c10w_trace) (some ("r"))).1 ("r")).map
        (fun g => g.turn) = some Player.X
    ∧ dget c10w_state.players ("A") = some Player.X :=
  claim10_theorem (run_events c10w_trace) (run_events c10w_trace)
    (run_events c10w_trace) ("A") ("A") ("q") ("r") ("r")
    c10w_state (PyVal.vint 0) c10w_res c10w_st
    (by decide) (by rfl) (by rfl) (by rfl)
    (by
      rw [show c10w_res.2 = [Emit.updateState ("r") c10w_st] from rfl]
      exact List.mem_singleton_self _)
